import Mathlib

/-!
# Verification of the client-side record-query engine

Shallow embedding of the filtering / searching / sorting / pagination /
cross-referencing logic of the funding-opportunity browser (grants,
challenges, SBIR, NOFAs managers) together with proofs about it.

Conventions of the embedding:
* JavaScript strings are Lean `String`s; `s.toLowerCase()` is `lowerStr`,
  `a.includes(b)` is `jsIncludes a b` (substring containment, `List Char`
  based).
* A field that may be `null`/`undefined` is an `Option`; the JavaScript
  truthiness test `!x` on an optional number is `numFalsy` (it is true for
  both a missing value and the number 0, exactly as in the source).
* Date strings are represented by their parsed timestamp (milliseconds
  since the Unix epoch) as `Option Int`, `none` standing for an absent
  date.  Machine floats do not occur: all amounts in the data are integral
  dollar figures.
* DOM-held query state (search box, filter dropdowns, current page) is an
  explicit state record; an event handler is a state transition function.
-/

/-- `leadsWith hay needle` : `needle` is a prefix of `hay` (char lists). -/
def leadsWith : List Char → List Char → Bool
  | _, [] => true
  | [], _ :: _ => false
  | a :: as, b :: bs => a == b && leadsWith as bs

/-- `hasSub hay needle` : `needle` occurs contiguously inside `hay`.
This is the semantics of JavaScript `hay.includes(needle)`. -/
def hasSub : List Char → List Char → Bool
  | [], needle => needle.isEmpty
  | _h :: t, needle => leadsWith (_h :: t) needle || hasSub t needle

/-- JavaScript `hay.includes(needle)` on strings. -/
def jsIncludes (hay needle : String) : Bool :=
  hasSub hay.data needle.data

/-- JavaScript `s.toLowerCase()` (per-character lowering suffices for the
ASCII data handled by the site). -/
def lowerStr (s : String) : String :=
  ⟨s.data.map Char.toLower⟩

/-- JavaScript whitespace test used by `trim`. -/
def isWS (c : Char) : Bool :=
  c == ' ' || c == '\t' || c == '\n' || c == '\r'

/-- JavaScript `s.trim()`. -/
def jsTrim (s : String) : String :=
  ⟨((s.data.dropWhile isWS).reverse.dropWhile isWS).reverse⟩

/-- Lexicographic comparison of char lists by code point; this is the
ordering used by JavaScript `<`/`>` on strings and hence by the default
`Array.prototype.sort()` comparator. -/
def lexLe : List Char → List Char → Bool
  | [], _ => true
  | _ :: _, [] => false
  | a :: as, b :: bs =>
    if a.toNat < b.toNat then true
    else if b.toNat < a.toNat then false
    else lexLe as bs

/-- The default JavaScript string ordering. -/
def strLe (a b : String) : Bool := lexLe a.data b.data

/-- JavaScript falsiness of an optional number: `!x` is true when the field
is `null`/`undefined` or holds `0`. -/
def numFalsy : Option Int → Bool
  | none => true
  | some n => n == 0

/-- `field?.toLowerCase().includes(term)` for an optional string field:
an absent field contributes `false` (it is skipped, not matched). -/
def optIncludes (field : Option String) (term : String) : Bool :=
  match field with
  | none => false
  | some s => jsIncludes (lowerStr s) term

/-- Page-windowed retrieval, as performed by `updateTable` (app.js),
`SBIRManager.displayData` and `NOFAsManager.displayData`:
`list.slice((page - 1) * itemsPerPage, page * itemsPerPage)`. -/
def pageSlice {α : Type} (l : List α) (page size : Nat) : List α :=
  (l.drop ((page - 1) * size)).take size

/-! ## Grants manager (src/app.js) -/

/-- A grant record, restricted to the fields the embedded operations read.
Every field is optional: the loader accepts arbitrary flat JSON objects. -/
structure Grant where
  agency : Option String
  category : Option String
  status : Option String
  award_ceiling : Option Int
deriving DecidableEq

/-- `matchesFundingRange` from src/app.js (lines 166-180): bucket filter on
`award_ceiling`.  A falsy ceiling (absent or 0) short-circuits to the
`unspecified` bucket test before the switch is reached. -/
def matchesFundingRange (ceiling : Option Int) (range : String) : Bool :=
  if numFalsy ceiling then range == "unspecified"
  else
    let c := ceiling.getD 0
    match range with
    | "under-100k" => decide (c < 100000)
    | "100k-500k" => decide (100000 ≤ c) && decide (c < 500000)
    | "500k-1m" => decide (500000 ≤ c) && decide (c < 1000000)
    | "1m-5m" => decide (1000000 ≤ c) && decide (c < 5000000)
    | "5m-10m" => decide (5000000 ≤ c) && decide (c < 10000000)
    | "over-10m" => decide (10000000 ≤ c)
    | "unspecified" => numFalsy ceiling
    | _ => true

/-- Timestamp (ms since epoch) of `2099-12-31`, the sentinel date that
`sortTable` in src/app.js substitutes for an absent date value. -/
def dateSentinel : Int := 4102358400000

/-- The sort key `sortTable` (src/app.js lines 227-230) assigns to a date
column value: `new Date(val || '2099-12-31')`, with the date represented by
its parsed timestamp and `none` for an absent value. -/
def closeDateSortKey (d : Option Int) : Int := d.getD dateSentinel

/-- JavaScript default `Array.prototype.sort()` on an array of strings and
`undefined` holes: defined values are compared as strings, `undefined`
values are hoisted to the end without consulting the comparator. -/
def jsSortValues (vals : List (Option String)) : List (Option String) :=
  (List.insertionSort (fun a b => strLe a b = true) (vals.filterMap id)).map some
    ++ vals.filter (·.isNone)

/-- The agencies filter-option list built by `populateFilters`
(src/app.js lines 81-89): `[...new Set(grantsData.map(g => g.agency))].sort()`.
Note there is no null/empty exclusion step. -/
def populateFiltersAgencies (l : List Grant) : List (Option String) :=
  jsSortValues (l.map (·.agency)).dedup

/-- `String(value).replace(/"/g, '""')`: double every double-quote. -/
def escQuotesL : List Char → List Char
  | [] => []
  | c :: t => if c == '"' then '"' :: '"' :: escQuotesL t else c :: escQuotesL t

/-- String wrapper for `escQuotesL`. -/
def jsReplaceQuotes (s : String) : String := ⟨escQuotesL s.data⟩

/-- Per-field CSV serialization of `exportResults` (src/app.js lines
496-501): double inner quotes, then quote-wrap when the escaped text
contains a comma, a double quote or a newline. -/
def csvEscapeField (s : String) : String :=
  let e := jsReplaceQuotes s
  if e.data.contains ',' || e.data.contains '"' || e.data.contains '\n' then
    "\"" ++ e ++ "\""
  else e

/-- Fixed header order of the grants CSV export (src/app.js lines 473-492). -/
def grantsExportHeaders : List String :=
  ["Title", "Agency", "Category", "Funding Type", "Min Award", "Max Award",
   "Total Funding", "Close Date", "Posted Date", "CFDA Number",
   "Opportunity Number", "Cost Sharing", "Expected Awards", "Contact Email",
   "URL"]

/-- CSV assembly of `exportResults` (src/app.js lines 492-503) over the
per-record field rows (each row lists the 15 field values of one filtered
grant, in header order): header line, then one comma-joined escaped row per
record, joined by newlines. -/
def exportResultsCsv (rows : List (List String)) : String :=
  String.intercalate "\n"
    (String.intercalate "," grantsExportHeaders ::
      rows.map (fun r => String.intercalate "," (r.map csvEscapeField)))

/-! ## Challenges manager (src/unnamed/part_001) -/

/-- A challenge record.  `description` is kept as a plain string (every
record in the data carries one; the source's truthiness guard on it is the
empty-string test), the remaining optional fields are `Option`s. -/
structure Challenge where
  id : String
  title : String
  agency : String
  description : String
  status : String
  challenge_type : Option String
  submission_deadline : Option String
  prize_total : Option Int
deriving DecidableEq

/-- The prize conjunct of `filterChallenges` (src/unnamed/part_001 lines
255-265): `matchesPrize` starts `true` and the switch only runs when both
the filter value and `prize_total` are truthy; a switch value outside the
five listed cases leaves it `true` (the switch has no default). -/
def challengeMatchesPrize (prize_total : Option Int) (prizeFilter : String) : Bool :=
  if prizeFilter != "" && !(numFalsy prize_total) then
    let prize := prize_total.getD 0
    match prizeFilter with
    | "under-10k" => decide (prize < 10000)
    | "10k-50k" => decide (10000 ≤ prize) && decide (prize < 50000)
    | "50k-100k" => decide (50000 ≤ prize) && decide (prize < 100000)
    | "100k-500k" => decide (100000 ≤ prize) && decide (prize < 500000)
    | "over-500k" => decide (500000 ≤ prize)
    | _ => true
  else true

/-- `filterChallenges` (src/unnamed/part_001 lines 238-268), as a pure
function of the loaded data and the current control values (the search term
arrives already lowercased, as in the source). -/
def filterChallenges (searchTerm agencyFilter statusFilter typeFilter prizeFilter : String)
    (data : List Challenge) : List Challenge :=
  data.filter (fun c =>
    (searchTerm == "" || jsIncludes (lowerStr c.title) searchTerm
      || jsIncludes (lowerStr c.agency) searchTerm
      || (c.description != "" && jsIncludes (lowerStr c.description) searchTerm))
    && (agencyFilter == "" || c.agency == agencyFilter)
    && (statusFilter == "" || c.status == statusFilter)
    && (typeFilter == "" || c.challenge_type == some typeFilter)
    && challengeMatchesPrize c.prize_total prizeFilter)

/-- The page-relevant state of the challenges tab: the filtered list and
the current page number (module-level variables in the source). -/
structure ChallengesView where
  filteredChallenges : List Challenge
  currentChallengePage : Nat
deriving DecidableEq

/-- `challengeItemsPerPage` (src/unnamed/part_001 line 7). -/
def challengeItemsPerPage : Nat := 20

/-- `Math.ceil(filteredChallenges.length / challengeItemsPerPage)` as
computed by `updateChallengePagination`. -/
def challengeTotalPages (v : ChallengesView) : Nat :=
  (v.filteredChallenges.length + challengeItemsPerPage - 1) / challengeItemsPerPage

/-- `changePage` (src/unnamed/part_001 lines 357-360): store the page number
and re-render.  Rendering (`updateChallengeTable`) reads but never writes
the state, so the transition is exactly this assignment. -/
def changePage (v : ChallengesView) (page : Nat) : ChallengesView :=
  { v with currentChallengePage := page }

/-- Per-field serialization used by `convertChallengersToCsv`
(src/unnamed/part_001 lines 419-427): each value is interpolated into a
quote-wrapped template literal, with no escaping of the value itself. -/
def challengeCsvCell (s : String) : String := "\"" ++ s ++ "\""

/-- JavaScript `s.substring(0, n)`. -/
def jsSubstring (s : String) (n : Nat) : String := ⟨s.data.take n⟩

/-- Modelled from the spec: `formatAmount` is called by the challenges
table and CSV export but is defined in the generated HTML page, which is
not under src/.  Modelled as a currency rendering helper in the style of
the sibling `formatCurrency` helpers: an absent amount renders as a
placeholder, a present amount as a dollar figure.  The challenge claims do
not depend on its exact output. -/
def formatAmount : Option Int → String
  | none => "N/A"
  | some n => "$" ++ toString n

/-- `formatDate` (src/app.js lines 528-540), shared by the challenges tab:
an absent date renders as `Not specified`; the locale rendering of a
present date string is abstracted as the raw date string. -/
def formatDate : Option String → String
  | none => "Not specified"
  | some s => s

/-- `convertChallengersToCsv` (src/unnamed/part_001 lines 414-432): fixed
header line, then one row per challenge whose cells are quote-wrapped
unescaped interpolations; the description is truncated to 200 characters
with a `...` suffix. -/
def convertChallengersToCsv (cs : List Challenge) : String :=
  String.intercalate "\n"
    (String.intercalate "," ["Title", "Agency", "Type", "Status", "Prize Amount", "Deadline", "Description"] ::
      cs.map (fun c => String.intercalate ","
        [challengeCsvCell c.title,
         challengeCsvCell c.agency,
         challengeCsvCell (c.challenge_type.getD ""),
         challengeCsvCell c.status,
         challengeCsvCell (formatAmount c.prize_total),
         challengeCsvCell (formatDate c.submission_deadline),
         challengeCsvCell (jsSubstring c.description 200 ++ "...")]))

/-! ## SBIR/STTR manager (src/unnamed/part_002) -/

namespace SBIRManager

/-- An SBIR award record, restricted to the fields read by the embedded
operations (the four searchable fields of the awards sub-tab). -/
structure Award where
  id : String
  award_title : Option String
  firm : Option String
  abstract : Option String
  keywords : Option String
deriving DecidableEq

/-- The awards branch of `SBIRManager.performSearch` (src/unnamed/part_002
lines 325-330): optional chaining makes an absent field contribute a falsy
disjunct, so the record matches iff some present field contains the term. -/
def matchesAwardsSearch (term : String) (a : Award) : Bool :=
  optIncludes a.award_title term || optIncludes a.firm term
    || optIncludes a.abstract term || optIncludes a.keywords term

/-- The present searchable field values of an award, in source order. -/
def awardSearchVals (a : Award) : List String :=
  [a.award_title, a.firm, a.abstract, a.keywords].filterMap id

/-- `SBIRManager.performSearch('awards')` (src/unnamed/part_002 lines
321-342) as a function of the raw search-box text and the loaded awards:
the term is lowercased then trimmed, and the full collection is filtered. -/
def performSearch (raw : String) (data : List Award) : List Award :=
  data.filter (matchesAwardsSearch (jsTrim (lowerStr raw)))

/-- `SBIRManager.matchesFundingRange` (src/unnamed/part_002 lines 385-395):
bucket filter on a company's `total_funding`.  A falsy amount (absent or 0)
short-circuits to the `under-500k` test; there is no `unspecified` bucket. -/
def matchesFundingRange (amount : Option Int) (range : String) : Bool :=
  if numFalsy amount then range == "under-500k"
  else
    let a := amount.getD 0
    match range with
    | "under-500k" => decide (a < 500000)
    | "500k-1m" => decide (500000 ≤ a) && decide (a < 1000000)
    | "1m-5m" => decide (1000000 ≤ a) && decide (a < 5000000)
    | "5m-10m" => decide (5000000 ≤ a) && decide (a < 10000000)
    | "over-10m" => decide (10000000 ≤ a)
    | _ => true

/-- An SBIR company record; only the key field of the cross-reference
resolver is needed. -/
structure Company where
  id : String
  firm_name : String
deriving DecidableEq

/-- Outcome of the cross-reference resolution: either navigate to the found
company record, or report a not-found notice (the `alert` branch). -/
inductive CrossRefOutcome where
  | navigate (c : Company)
  | notFound
deriving DecidableEq

/-- `SBIRManager.showCompanyFromName` (src/unnamed/part_002 lines 775-793):
find the first company whose `firm_name` equals the given name
case-insensitively; navigate to it when found, otherwise alert the user and
leave the current view untouched. -/
def showCompanyFromName (companies : List Company) (name : String) : CrossRefOutcome :=
  match companies.find? (fun c => lowerStr c.firm_name == lowerStr name) with
  | some c => .navigate c
  | none => .notFound

/-- The page-relevant state of one SBIR sub-tab. -/
structure SubTabView where
  filteredData : List Award
  currentPage : Nat
deriving DecidableEq

/-- `SBIRManager.changePage` (src/unnamed/part_002 lines 678-681): store
the page number and re-render; `displayData` reads but never writes the
state. -/
def changePage (v : SubTabView) (page : Nat) : SubTabView :=
  { v with currentPage := page }

end SBIRManager

/-! ## NOFAs manager (src/unnamed/part_003) -/

namespace NOFAsManager

/-- A Federal Register NOFA record, restricted to the fields the embedded
operations read.  Dates carry their parsed timestamp. -/
structure Nofa where
  id : String
  title : Option String
  agency : Option String
  abstract : Option String
  document_number : Option String
  docket_id : Option String
  application_deadline : Option String
  keywords : Option (List String)
  publication_date : Option Int
  funding_amount : Option Int
  significant : Bool
deriving DecidableEq

/-- The current values of the six NOFAs filter controls. -/
structure Filters where
  agency : String
  dateRange : String
  funding : String
  deadline : String
  significant : String
  docket : String
deriving DecidableEq

/-- All filter controls in their initial (unset) position. -/
def emptyFilters : Filters :=
  { agency := "", dateRange := "", funding := "", deadline := "",
    significant := "", docket := "" }

/-- The NOFAs manager state: the immutable loaded collection, the mutable
filtered list, the page, and the DOM-held control values.  `now` is the
clock read by the relative date filter. -/
structure State where
  nofasData : List Nofa
  filteredData : List Nofa
  currentPage : Nat
  searchTerm : String
  filters : Filters
  now : Int
deriving DecidableEq

/-- The search predicate of `NOFAsManager.performSearch`
(src/unnamed/part_003 lines 482-488): five optionally-chained disjuncts,
the keyword array being searched element-wise. -/
def searchPred (term : String) (n : Nofa) : Bool :=
  optIncludes n.title term || optIncludes n.agency term
    || optIncludes n.abstract term
    || (match n.keywords with
        | none => false
        | some ks => ks.any (fun k => jsIncludes (lowerStr k) term))
    || optIncludes n.document_number term

/-- The searchable string values a NOFA contributes to the search stage, in
source order: the present scalar fields, with the keyword array flattened
element-wise.  An absent field — and equally an EMPTY keyword array —
contributes no value. -/
def nofaSearchVals (n : Nofa) : List String :=
  ([n.title, n.agency, n.abstract].filterMap id)
    ++ n.keywords.getD []
    ++ ([n.document_number].filterMap id)

/-- `NOFAsManager.matchesFundingRange` (src/unnamed/part_003 lines
565-575). -/
def matchesFundingRange (amount : Option Int) (range : String) : Bool :=
  if numFalsy amount then range == "unspecified"
  else
    let a := amount.getD 0
    match range with
    | "under-1m" => decide (a < 1000000)
    | "1m-10m" => decide (1000000 ≤ a) && decide (a < 10000000)
    | "10m-100m" => decide (10000000 ≤ a) && decide (a < 100000000)
    | "over-100m" => decide (100000000 ≤ a)
    | _ => true

/-- `NOFAsManager.matchesDeadlineFilter` (src/unnamed/part_003 lines
577-602): substring heuristics over the free-text deadline. -/
def matchesDeadlineFilter (deadline : Option String) (filterVal : String) : Bool :=
  match deadline with
  | none => filterVal != "open"
  | some d =>
    let t := lowerStr d
    match filterVal with
    | "open" => jsIncludes t "open" || jsIncludes t "accepting" || jsIncludes t "due"
    | "week" => jsIncludes t "7 days" || jsIncludes t "week"
    | "month" => jsIncludes t "30 days" || jsIncludes t "month"
    | "quarter" => jsIncludes t "quarter" || jsIncludes t "3 months"
    | _ => true

/-- Milliseconds per day. -/
def dayMs : Int := 86400000

/-- The cutoff timestamp of the relative date filter (src/unnamed/part_003
lines 505-521); an unrecognized non-empty value leaves `cutoffDate`
undefined, in which case the date pass is skipped. -/
def dateCutoff (now : Int) : String → Option Int
  | "week" => some (now - 7 * dayMs)
  | "month" => some (now - 30 * dayMs)
  | "quarter" => some (now - 90 * dayMs)
  | "year" => some (now - 365 * dayMs)
  | _ => none

/-- The six filter passes of `NOFAsManager.applyFilters`
(src/unnamed/part_003 lines 493-558), applied to whatever list is passed
in (the source applies them to `this.filteredData`). -/
def filterPass (f : Filters) (now : Int) (data : List Nofa) : List Nofa :=
  let d1 := if f.agency != "" then data.filter (fun n => n.agency == some f.agency) else data
  let d2 :=
    if f.dateRange != "" then
      match dateCutoff now f.dateRange with
      | some cutoff =>
        d1.filter (fun n =>
          match n.publication_date with
          | none => false
          | some t => decide (cutoff ≤ t))
      | none => d1
    else d1
  let d3 := if f.funding != "" then d2.filter (fun n => matchesFundingRange n.funding_amount f.funding) else d2
  let d4 := if f.deadline != "" then d3.filter (fun n => matchesDeadlineFilter n.application_deadline f.deadline) else d3
  let d5 :=
    if f.significant != "" then
      d4.filter (fun n => n.significant == (f.significant == "true"))
    else d4
  let d6 :=
    if jsTrim f.docket != "" then
      d5.filter (fun n =>
        match n.docket_id with
        | none => false
        | some d => jsIncludes (lowerStr d) (lowerStr (jsTrim f.docket)))
    else d5
  d6

/-- `NOFAsManager.applyFilters` as a state transition: it narrows the
CURRENT `filteredData` (not the full collection) and resets the page. -/
def applyFilters (st : State) : State :=
  { st with filteredData := filterPass st.filters st.now st.filteredData,
            currentPage := 1 }

/-- `NOFAsManager.performSearch` as a state transition: it refilters the
FULL collection by the search predicate, then runs `applyFilters`. -/
def performSearch (st : State) : State :=
  applyFilters
    { st with filteredData := st.nofasData.filter (searchPred (jsTrim (lowerStr st.searchTerm))) }

/-- The handler for a change of the agency dropdown
(src/unnamed/part_003 lines 296-301): update the control value, then run
`applyFilters` (and only `applyFilters`). -/
def setAgencyFilter (st : State) (v : String) : State :=
  applyFilters { st with filters := { st.filters with agency := v } }

/-- The state right after `loadNOFAsData` (src/unnamed/part_003 lines
321-351): `filteredData = [...nofasData]`, page 1, all controls unset. -/
def load (data : List Nofa) (now : Int) : State :=
  { nofasData := data, filteredData := data, currentPage := 1,
    searchTerm := "", filters := emptyFilters, now := now }

/-- The date sort key of `NOFAsManager.sortTable` (src/unnamed/part_003
lines 805-818): `aVal = a[column] || ''` then `new Date(aVal || 0)`, so an
absent date becomes the Unix epoch. -/
def dateKey (d : Option Int) : Int := d.getD 0

/-- `NOFAsManager.sortTable('publication_date')` on the filtered list: a
stable sort by the date key (JavaScript `sort` is stable; the comparator
returns -1/0/1 by key comparison). -/
def sortByPublicationDate (l : List Nofa) : List Nofa :=
  List.insertionSort (fun a b => dateKey a.publication_date ≤ dateKey b.publication_date) l

/-- The agencies filter-option list built by
`NOFAsManager.populateFilterOptions` (src/unnamed/part_003 lines 466-476):
`[...new Set(nofasData.map(n => n.agency).filter(Boolean))].sort()`. -/
def populateAgencyOptions (l : List Nofa) : List String :=
  List.insertionSort (fun a b => strLe a b = true)
    (((l.map (·.agency)).filterMap id).filter (fun s => s != "")).dedup

end NOFAsManager

/-! ## Concrete records used by witnesses and counterexamples -/

/-- The three sample companies shipped with the SBIR manager
(src/unnamed/part_002 lines 203-249), restricted to the resolver's fields. -/
def sampleCompanies : List SBIRManager.Company :=
  [⟨"company_techcorp", "TechCorp Innovations"⟩,
   ⟨"company_biomed", "BioMed Solutions LLC"⟩,
   ⟨"company_quantum", "Quantum Dynamics Inc"⟩]

/-- An SBIR award none of whose searchable fields is present. -/
def emptyAward : SBIRManager.Award := ⟨"a0", none, none, none, none⟩

/-- A challenge without a prize total, used to exercise the prize filter. -/
def chNoPrize : Challenge :=
  ⟨"c0", "Open Data Challenge", "GSA", "desc", "Active", none, none, none⟩

/-- A challenge whose title contains double quotes, used to exercise the
CSV escaping. -/
def chQuote : Challenge :=
  ⟨"c1", "Say \"Go\" Challenge", "NASA", "desc", "Active", none, none, none⟩

/-- A NOFA with agency HUD and no other populated fields. -/
def nofaHud : NOFAsManager.Nofa :=
  ⟨"n1", some "HUD NOFA", some "HUD", none, none, none, none, none, none, none, false⟩

/-- A NOFA with agency DOE and no other populated fields. -/
def nofaDoe : NOFAsManager.Nofa :=
  ⟨"n2", some "DOE NOFA", some "DOE", none, none, none, none, none, none, none, false⟩

/-- A NOFA whose publication date parses to 2020-01-01T00:00:00Z. -/
def nofaDated : NOFAsManager.Nofa :=
  ⟨"d1", some "Dated NOFA", some "DOE", none, none, none, none, none,
   some 1577836800000, none, false⟩

/-- A NOFA whose only present searchable field is an EMPTY keywords array —
it contributes no searchable string value at all. -/
def nofaOnlyEmptyKeywords : NOFAsManager.Nofa :=
  ⟨"k0", none, none, none, none, none, none, some [], none, none, false⟩

/-- A NOFA with no publication date. -/
def nofaUndated : NOFAsManager.Nofa :=
  ⟨"d2", some "Undated NOFA", some "HUD", none, none, none, none, none,
   none, none, false⟩

/-! ## Helper lemmas -/

theorem hasSub_nil_right (l : List Char) : hasSub l [] = true := by
  cases l <;> simp [hasSub, leadsWith]

theorem jsIncludes_empty_right (s : String) : jsIncludes s "" = true := by
  simpa [jsIncludes] using hasSub_nil_right s.data

theorem lexLe_total (x y : List Char) : lexLe x y = true ∨ lexLe y x = true := by
  induction x generalizing y with
  | nil => left; rfl
  | cons a as ih =>
    cases y with
    | nil => right; rfl
    | cons b bs =>
      rcases Nat.lt_trichotomy a.toNat b.toNat with h | h | h
      · left; simp [lexLe, h]
      · have h1 : ¬ a.toNat < b.toNat := by omega
        have h2 : ¬ b.toNat < a.toNat := by omega
        rcases ih bs with hr | hr
        · left; simp [lexLe, h1, h2, hr]
        · right; simp [lexLe, h1, h2, hr]
      · right; simp [lexLe, h]

theorem lexLe_trans (x y z : List Char) (h1 : lexLe x y = true) (h2 : lexLe y z = true) :
    lexLe x z = true := by
  induction x generalizing y z with
  | nil => rfl
  | cons a as ih =>
    cases y with
    | nil => simp [lexLe] at h1
    | cons b bs =>
      cases z with
      | nil => simp [lexLe] at h2
      | cons c cs =>
        simp only [lexLe] at h1 h2 ⊢
        rcases Nat.lt_trichotomy a.toNat b.toNat with hab | hab | hab
        · rcases Nat.lt_trichotomy b.toNat c.toNat with hbc | hbc | hbc
          · simp [show a.toNat < c.toNat by omega]
          · simp [show a.toNat < c.toNat by omega]
          · simp [show ¬ b.toNat < c.toNat by omega, hbc] at h2
        · rcases Nat.lt_trichotomy b.toNat c.toNat with hbc | hbc | hbc
          · simp [show a.toNat < c.toNat by omega]
          · simp [show ¬ a.toNat < b.toNat by omega,
                  show ¬ b.toNat < a.toNat by omega] at h1
            simp [show ¬ b.toNat < c.toNat by omega,
                  show ¬ c.toNat < b.toNat by omega] at h2
            simp [show ¬ a.toNat < c.toNat by omega,
                  show ¬ c.toNat < a.toNat by omega]
            exact ih bs cs h1 h2
          · simp [show ¬ b.toNat < c.toNat by omega, hbc] at h2
        · simp [show ¬ a.toNat < b.toNat by omega, hab] at h1

theorem strLe_total (a b : String) : strLe a b = true ∨ strLe b a = true :=
  lexLe_total a.data b.data

theorem strLe_trans (a b c : String) (h1 : strLe a b = true) (h2 : strLe b c = true) :
    strLe a c = true :=
  lexLe_trans a.data b.data c.data h1 h2

instance : IsTotal String (fun a b => strLe a b = true) := ⟨strLe_total⟩

instance : IsTrans String (fun a b => strLe a b = true) := ⟨strLe_trans⟩

theorem find?_of_filter_singleton {α : Type} (p : α → Bool) (l : List α) (c : α)
    (h : l.filter p = [c]) : l.find? p = some c := by
  induction l with
  | nil => simp at h
  | cons a t ih =>
    cases hp : p a with
    | true =>
      rw [List.filter_cons_of_pos hp] at h
      injection h with h1 h2
      subst h1
      simp [List.find?_cons_of_pos, hp]
    | false =>
      rw [List.filter_cons_of_neg (by simp [hp])] at h
      rw [List.find?_cons_of_neg t (by simp [hp])]
      exact ih h

theorem mem_escQuotesL (c : Char) (l : List Char) : c ∈ escQuotesL l ↔ c ∈ l := by
  induction l with
  | nil => simp [escQuotesL]
  | cons h t ih =>
    by_cases hq : h = '"'
    · subst hq; simp [escQuotesL, ih]
    · simp [escQuotesL, show (h == '"') = false by simp [hq], ih]

theorem escQuotesL_contains (c : Char) (l : List Char) :
    (escQuotesL l).contains c = l.contains c := by
  rw [Bool.eq_iff_iff]
  simp only [List.contains, List.elem_iff]
  exact mem_escQuotesL c l

/-! ## Claim theorems -/

/-- C9: a challenge whose `prize_total` is absent or 0 satisfies every
prize-range filter value — the prize predicate is skipped for such records
— so no prize filter can exclude it from `filterChallenges` beyond what the
other controls already do. -/
theorem challenge_prize_skip (s a st t f : String) (data : List Challenge)
    (c : Challenge) (h : c.prize_total = none ∨ c.prize_total = some 0) :
    challengeMatchesPrize c.prize_total f = true
    ∧ (c ∈ filterChallenges s a st t f data ↔ c ∈ filterChallenges s a st t "" data) := by
  have hp : ∀ g : String, challengeMatchesPrize c.prize_total g = true := by
    intro g
    rcases h with h | h <;> rw [h] <;> simp [challengeMatchesPrize, numFalsy]
  refine ⟨hp f, ?_⟩
  simp [filterChallenges, List.mem_filter, hp]

/-- C9 witness: the prize filter `over-500k` does not exclude the sample
challenge that has no prize total. -/
theorem challenge_prize_skip_witness :
    challengeMatchesPrize chNoPrize.prize_total "over-500k" = true
    ∧ (chNoPrize ∈ filterChallenges "" "" "" "" "over-500k" [chNoPrize]
        ↔ chNoPrize ∈ filterChallenges "" "" "" "" "" [chNoPrize]) :=
  challenge_prize_skip "" "" "" "" "over-500k" [chNoPrize] chNoPrize (Or.inl rfl)

/-- C10: the page window is total — for every list and every page number
`n ≥ 1` the slice `[(n-1)*20, n*20)` is a well-defined list of at most 20
elements, its entries agree with the source list at the windowed indices,
and it is empty (not an error) whenever the window starts at or beyond the
end of the list, in particular when `n` exceeds the page count. -/
theorem pageSlice_total {α : Type} (l : List α) (n : Nat) (h : 1 ≤ n) :
    (pageSlice l n 20).length ≤ 20
    ∧ (∀ i, i < 20 → (pageSlice l n 20)[i]? = l[(n - 1) * 20 + i]?)
    ∧ (l.length ≤ (n - 1) * 20 → pageSlice l n 20 = []) := by
  refine ⟨?_, ?_, ?_⟩
  · simp [pageSlice, List.length_take]
  · intro i hi
    simp [pageSlice, List.getElem?_take, hi, List.getElem?_drop]
  · intro hle
    simp [pageSlice, List.drop_eq_nil_of_le hle]

/-- C10 witness: page 7 of a 3-element list is the empty window. -/
theorem pageSlice_total_witness :
    (pageSlice ([10, 11, 12] : List Nat) 7 20).length ≤ 20
    ∧ pageSlice ([10, 11, 12] : List Nat) 7 20 = [] :=
  ⟨(pageSlice_total [10, 11, 12] 7 (by decide)).1,
   (pageSlice_total [10, 11, 12] 7 (by decide)).2.2 (by decide)⟩

/-- C5 counterexample: `changePage` does not clamp.  With 5 filtered
challenges there is exactly 1 page, yet `changePage(7)` stores page 7,
outside the range `[1, ceil(totalCount/pageSize)]` the claim requires. -/
theorem changePage_no_clamp_cex :
    (changePage ⟨List.replicate 5 chNoPrize, 1⟩ 7).currentChallengePage = 7
    ∧ challengeTotalPages ⟨List.replicate 5 chNoPrize, 1⟩ = 1
    ∧ ¬ ((changePage ⟨List.replicate 5 chNoPrize, 1⟩ 7).currentChallengePage
          ≤ challengeTotalPages ⟨List.replicate 5 chNoPrize, 1⟩) := by
  refine ⟨rfl, by decide, by decide⟩

/-- C5 (amended): `changePage` stores exactly the requested page number,
unclamped (an out-of-range page shows an empty window rather than erroring),
and leaves the filtered records untouched — it never recomputes filtering.
Shown for both the challenges tab and the SBIR sub-tabs. -/
theorem changePage_sets_page (v : ChallengesView) (p : Nat)
    (w : SBIRManager.SubTabView) (q : Nat) :
    (changePage v p).currentChallengePage = p
    ∧ (changePage v p).filteredChallenges = v.filteredChallenges
    ∧ (SBIRManager.changePage w q).currentPage = q
    ∧ (SBIRManager.changePage w q).filteredData = w.filteredData :=
  ⟨rfl, rfl, rfl, rfl⟩

/-- C2 counterexample: in the SBIR companies funding filter a missing
amount satisfies the bounded `under-500k` bucket (a bucket that rejects
600000, so it is bounded), contradicting the claim that missing numeric
values never satisfy a bounded bucket and only a designated `unspecified`
bucket (which this filter does not even offer). -/
theorem sbir_missing_funding_cex :
    SBIRManager.matchesFundingRange none "under-500k" = true
    ∧ SBIRManager.matchesFundingRange (some 600000) "under-500k" = false
    ∧ SBIRManager.matchesFundingRange none "over-10m" = false := by
  refine ⟨rfl, by decide, by decide⟩

/-- C2 (amended): in the grants and NOFAs managers a missing funding value
satisfies exactly the `unspecified` bucket and no bounded bucket, and the
scenario holds: over award ceilings [50000, 150000, null] the `under-100k`
filter keeps exactly the 50000 record and the `unspecified` filter exactly
the null record.  In the SBIR companies funding filter — which has no
`unspecified` bucket — a missing amount instead satisfies exactly the
`under-500k` bucket. -/
theorem funding_missing_buckets (r : String) :
    matchesFundingRange none r = (r == "unspecified")
    ∧ NOFAsManager.matchesFundingRange none r = (r == "unspecified")
    ∧ SBIRManager.matchesFundingRange none r = (r == "under-500k")
    ∧ List.filter (fun c => matchesFundingRange c "under-100k")
        [some 50000, some 150000, none] = [some 50000]
    ∧ List.filter (fun c => matchesFundingRange c "unspecified")
        [some 50000, some 150000, none] = [none] :=
  ⟨rfl, rfl, rfl, by decide, by decide⟩

/-- C6: cross-reference resolution matches by case-insensitive exact
equality on `firm_name`; when exactly one company carries the value, that
record is navigated to, and when none does, the resolver reports the
not-found notice (an alert) instead of silently doing nothing — no state of
the current view is touched in that branch. -/
theorem showCompanyFromName_spec (companies : List SBIRManager.Company) (name : String) :
    (∀ c, companies.filter (fun c => lowerStr c.firm_name == lowerStr name) = [c] →
        SBIRManager.showCompanyFromName companies name = .navigate c)
    ∧ (companies.filter (fun c => lowerStr c.firm_name == lowerStr name) = [] →
        SBIRManager.showCompanyFromName companies name = .notFound) := by
  constructor
  · intro c h
    unfold SBIRManager.showCompanyFromName
    rw [find?_of_filter_singleton _ _ _ h]
  · intro h
    unfold SBIRManager.showCompanyFromName
    rw [List.find?_eq_none.mpr]
    intro x hx
    simpa using (List.filter_eq_nil_iff.mp h) x hx

/-- C6 witness: on the shipped sample companies, resolving
`TechCorp Innovations` returns that single record and resolving
`Nonexistent Corp` reports not-found. -/
theorem showCompanyFromName_spec_witness :
    SBIRManager.showCompanyFromName sampleCompanies "TechCorp Innovations"
      = .navigate ⟨"company_techcorp", "TechCorp Innovations"⟩
    ∧ SBIRManager.showCompanyFromName sampleCompanies "Nonexistent Corp" = .notFound :=
  ⟨(showCompanyFromName_spec sampleCompanies "TechCorp Innovations").1 _ (by decide),
   (showCompanyFromName_spec sampleCompanies "Nonexistent Corp").2 (by decide)⟩

/-- C3 counterexample: with the empty search term, the SBIR awards search
excludes a record all of whose searchable fields are absent — the claim
that an empty term includes every record regardless of which searchable
fields are present is false. -/
theorem search_empty_term_cex :
    SBIRManager.matchesAwardsSearch "" emptyAward = false
    ∧ SBIRManager.performSearch "" [emptyAward] = []
    ∧ NOFAsManager.searchPred "" nofaOnlyEmptyKeywords = false
    ∧ (NOFAsManager.performSearch
        (NOFAsManager.load [nofaOnlyEmptyKeywords] 0)).filteredData = [] := by
  refine ⟨rfl, by decide, rfl, by decide⟩

/-- C3 (amended): a record matches the search stage iff at least one of its
searchable string values — a present scalar searchable field's value or,
for the NOFAs search, an element of its keywords array — lowercased,
contains the (lowercased, trimmed) term; absent fields are skipped.
Consequently the empty term matches exactly the records contributing at
least one searchable string value, and excludes a record with all
searchable fields absent, or, for NOFAs, one whose only present searchable
field is an empty keywords array.  Shown for the SBIR awards search and the
NOFAs search, the two cited implementations. -/
theorem search_stage_spec (term : String) (a : SBIRManager.Award)
    (n : NOFAsManager.Nofa) :
    (SBIRManager.matchesAwardsSearch term a = true
      ↔ ∃ v ∈ SBIRManager.awardSearchVals a, jsIncludes (lowerStr v) term = true)
    ∧ (SBIRManager.matchesAwardsSearch "" a = true
      ↔ SBIRManager.awardSearchVals a ≠ [])
    ∧ (NOFAsManager.searchPred term n = true
      ↔ ∃ v ∈ NOFAsManager.nofaSearchVals n, jsIncludes (lowerStr v) term = true)
    ∧ (NOFAsManager.searchPred "" n = true
      ↔ NOFAsManager.nofaSearchVals n ≠ []) := by
  have keyA : ∀ t : String, SBIRManager.matchesAwardsSearch t a
      = (SBIRManager.awardSearchVals a).any (fun v => jsIncludes (lowerStr v) t) := by
    intro t
    rcases a with ⟨i, o1, o2, o3, o4⟩
    cases o1 <;> cases o2 <;> cases o3 <;> cases o4 <;>
      simp [SBIRManager.matchesAwardsSearch, SBIRManager.awardSearchVals, optIncludes,
            Bool.or_assoc]
  have keyN : ∀ t : String, NOFAsManager.searchPred t n
      = (NOFAsManager.nofaSearchVals n).any (fun v => jsIncludes (lowerStr v) t) := by
    intro t
    rcases n with ⟨i, o1, o2, o3, o4, o5, o6, ok, o7, o8, b⟩
    cases o1 <;> cases o2 <;> cases o3 <;> cases o4 <;> cases ok <;>
      simp [NOFAsManager.searchPred, NOFAsManager.nofaSearchVals, optIncludes,
            Bool.or_assoc]
  have nempty : ∀ (vals : List String),
      (vals.any (fun v => jsIncludes (lowerStr v) "") = true ↔ vals ≠ []) := by
    intro vals
    rw [List.any_eq_true]
    constructor
    · rintro ⟨v, hv, -⟩ hnil
      rw [hnil] at hv
      simp at hv
    · intro hne
      obtain ⟨v, hv⟩ := List.exists_mem_of_ne_nil _ hne
      exact ⟨v, hv, jsIncludes_empty_right (lowerStr v)⟩
  refine ⟨?_, ?_, ?_, ?_⟩
  · rw [keyA, List.any_eq_true]
  · rw [keyA]
    exact nempty _
  · rw [keyN, List.any_eq_true]
  · rw [keyN]
    exact nempty _

/-- C8 counterexample: the grants filter-option aggregation keeps empty
values.  With agencies `NASA` and the empty string, `populateFilters`
produces a list that still contains the empty value, contradicting the
claim that null/empty values are excluded. -/
theorem populateFilters_keeps_empty_cex :
    populateFiltersAgencies
        [⟨some "NASA", none, none, none⟩, ⟨some "", none, none, none⟩]
      = [some "", some "NASA"]
    ∧ some "" ∈ populateFiltersAgencies
        [⟨some "NASA", none, none, none⟩, ⟨some "", none, none, none⟩] := by
  refine ⟨by decide, by decide⟩

/-- C8 (amended): the NOFAs (and SBIR) filter-option aggregation returns
the distinct values of the field, lexicographically sorted and with
null/empty values excluded; the grants manager's aggregation, by contrast,
dedupes and sorts but performs no null/empty exclusion (see the
counterexample). -/
theorem nofas_agency_options_spec (l : List NOFAsManager.Nofa) :
    List.Sorted (fun a b => strLe a b = true) (NOFAsManager.populateAgencyOptions l)
    ∧ (NOFAsManager.populateAgencyOptions l).Nodup
    ∧ (∀ s : String, s ∈ NOFAsManager.populateAgencyOptions l
        ↔ (some s ∈ l.map (·.agency) ∧ s ≠ "")) := by
  refine ⟨?_, ?_, ?_⟩
  · exact List.sorted_insertionSort _ _
  · exact ((List.perm_insertionSort _ _).nodup_iff).mpr (List.nodup_dedup _)
  · intro s
    unfold NOFAsManager.populateAgencyOptions
    rw [(List.perm_insertionSort _ _).mem_iff, List.mem_dedup, List.mem_filter,
        List.mem_filterMap]
    constructor
    · rintro ⟨⟨o, ho, hid⟩, hne⟩
      subst hid
      exact ⟨ho, by simpa using hne⟩
    · rintro ⟨hmem, hne⟩
      exact ⟨⟨some s, hmem, rfl⟩, by simpa using hne⟩

/-- C4 counterexample: sorting NOFAs by `publication_date` places a record
with an ABSENT date before a dated record — its key is the Unix epoch
(`new Date(0)`), the minimum among real timestamps, not the maximum date,
so it sorts to the beginning, not the end, in ascending order. -/
theorem nofas_sort_absent_date_cex :
    NOFAsManager.sortByPublicationDate [nofaDated, nofaUndated]
      = [nofaUndated, nofaDated]
    ∧ nofaUndated.publication_date = none
    ∧ (NOFAsManager.sortByPublicationDate [nofaDated, nofaUndated]).getLast?
        = some nofaDated := by
  refine ⟨by decide, rfl, by decide⟩

/-- C4 (amended): date sorts are stable sorts on a per-record date key, and
absent dates are given a fixed fallback key rather than the maximum date:
the grants manager substitutes 2099-12-31 (so an absent date sorts after
every earlier real date but before any later one), while the NOFAs manager
substitutes the Unix epoch (so an absent date sorts to the BEGINNING in
ascending order, before every record with a non-negative timestamp). -/
theorem date_sort_fallback_keys (d : Option Int) (t : Int) (hd : d = some t) :
    (0 ≤ t → NOFAsManager.dateKey none ≤ NOFAsManager.dateKey d)
    ∧ (t ≤ dateSentinel → closeDateSortKey d ≤ closeDateSortKey none) := by
  subst hd
  constructor
  · intro h
    simpa [NOFAsManager.dateKey] using h
  · intro h
    simpa [closeDateSortKey] using h

/-- C4 witness: the fallback-key comparisons at the 2020-01-01 timestamp. -/
theorem date_sort_fallback_keys_witness :
    NOFAsManager.dateKey none ≤ NOFAsManager.dateKey (some 1577836800000)
    ∧ closeDateSortKey (some 1577836800000) ≤ closeDateSortKey none :=
  ⟨(date_sort_fallback_keys _ 1577836800000 rfl).1 (by decide),
   (date_sort_fallback_keys _ 1577836800000 rfl).2 (by decide)⟩

/-- C7 counterexample: the challenges CSV export wraps a field containing a
double quote WITHOUT doubling the inner quotes — the emitted cell for the
title `Say "Go" Challenge` keeps the bare inner quotes, unlike the escaped
form the claim requires (shown by comparison with the grants escaper). -/
theorem challenges_csv_unescaped_cex :
    convertChallengersToCsv [chQuote]
      = "Title,Agency,Type,Status,Prize Amount,Deadline,Description\n\"Say \"Go\" Challenge\",\"NASA\",\"\",\"Active\",\"N/A\",\"Not specified\",\"desc...\""
    ∧ challengeCsvCell chQuote.title = "\"Say \"Go\" Challenge\""
    ∧ csvEscapeField chQuote.title = "\"Say \"\"Go\"\" Challenge\""
    ∧ challengeCsvCell chQuote.title ≠ csvEscapeField chQuote.title := by
  refine ⟨by decide, by decide, by decide, by decide⟩

/-- C7 (amended): the grants (and SBIR/NOFAs) CSV exports are pure
functions of the filtered records — one comma-joined row per record under a
fixed header order — and every field whose value contains a comma, a double
quote or a newline is emitted double-quote-wrapped with inner double quotes
escaped by doubling; the challenges export instead wraps every field in
quotes without escaping inner quotes (and truncates descriptions to 200
characters), see the counterexample. -/
theorem csv_escape_spec (s : String)
    (h : s.data.contains ',' = true ∨ s.data.contains '"' = true
          ∨ s.data.contains '\n' = true) :
    csvEscapeField s = "\"" ++ jsReplaceQuotes s ++ "\""
    ∧ ∀ rows : List (List String),
        exportResultsCsv rows
          = String.intercalate "\n"
              (String.intercalate "," grantsExportHeaders ::
                rows.map (fun r => String.intercalate "," (r.map csvEscapeField))) := by
  refine ⟨?_, fun rows => rfl⟩
  have e1 : (jsReplaceQuotes s).data.contains ',' = s.data.contains ',' :=
    escQuotesL_contains ',' s.data
  have e2 : (jsReplaceQuotes s).data.contains '"' = s.data.contains '"' :=
    escQuotesL_contains '"' s.data
  have e3 : (jsReplaceQuotes s).data.contains '\n' = s.data.contains '\n' :=
    escQuotesL_contains '\n' s.data
  have hcond : ((jsReplaceQuotes s).data.contains ','
      || (jsReplaceQuotes s).data.contains '"'
      || (jsReplaceQuotes s).data.contains '\n') = true := by
    rw [e1, e2, e3]
    rcases h with h | h | h <;> rw [h] <;> simp
  simp only [csvEscapeField]
  rw [if_pos hcond]

/-- C7 witness: a field containing a comma is emitted quote-wrapped. -/
theorem csv_escape_spec_witness :
    csvEscapeField "a,b" = "\"" ++ jsReplaceQuotes "a,b" ++ "\"" :=
  (csv_escape_spec "a,b" (Or.inl (by decide))).1

/-- C1: the recomputation claim fails on the NOFAs manager — a filter-only
change recomputes from the PREVIOUS filtered list, not from the full
collection.  Setting the agency filter to `HUD` and then back to the empty
value leaves `filteredData` narrowed to the HUD record even though every
control is back in its unset position, whereas never setting the filter
(or setting it to empty once) keeps the full collection. -/
theorem nofas_filter_unset_not_identity :
    (NOFAsManager.setAgencyFilter
        (NOFAsManager.setAgencyFilter (NOFAsManager.load [nofaHud, nofaDoe] 0) "HUD")
        "").filteredData = [nofaHud]
    ∧ (NOFAsManager.setAgencyFilter
        (NOFAsManager.setAgencyFilter (NOFAsManager.load [nofaHud, nofaDoe] 0) "HUD")
        "").filters = NOFAsManager.emptyFilters
    ∧ (NOFAsManager.load [nofaHud, nofaDoe] 0).filteredData = [nofaHud, nofaDoe]
    ∧ (NOFAsManager.setAgencyFilter (NOFAsManager.load [nofaHud, nofaDoe] 0)
        "").filteredData = [nofaHud, nofaDoe] := by
  refine ⟨by decide, by decide, rfl, by decide⟩

/-- C3 witness companion: the amended search characterisation evaluated at
the field-less award, the empty-keyword-array NOFA, and the empty term. -/
theorem search_stage_spec_witness :
    (SBIRManager.matchesAwardsSearch "" emptyAward = true
      ↔ SBIRManager.awardSearchVals emptyAward ≠ [])
    ∧ (NOFAsManager.searchPred "" nofaOnlyEmptyKeywords = true
      ↔ NOFAsManager.nofaSearchVals nofaOnlyEmptyKeywords ≠ []) :=
  ⟨(search_stage_spec "" emptyAward nofaOnlyEmptyKeywords).2.1,
   (search_stage_spec "" emptyAward nofaOnlyEmptyKeywords).2.2.2⟩

/-- C8 witness companion: the membership characterisation evaluated on a
one-record collection. -/
theorem nofas_agency_options_spec_witness :
    "HUD" ∈ NOFAsManager.populateAgencyOptions [nofaHud]
      ↔ (some "HUD" ∈ [nofaHud].map (·.agency) ∧ "HUD" ≠ "") :=
  (nofas_agency_options_spec [nofaHud]).2.2 "HUD"

/-- C2 witness companion: the missing-value bucket characterisation
evaluated at the `under-100k` bucket. -/
theorem funding_missing_buckets_witness :
    matchesFundingRange none "under-100k" = ("under-100k" == "unspecified") :=
  (funding_missing_buckets "under-100k").1
